import Mathlib

/-!
Shallow embedding of the rent-tracking application in `src/app.py`.

The store-backed state (SQLAlchemy tables `Tenant` and `RentDue`) is modelled
as explicit lists; the implicit clock (`datetime.today()`, `datetime.utcnow()`)
is passed in as a parameter (month string / timestamp), following the spec's
substitutable-clock interface.  Monetary amounts (Python floats holding
decimal rupee values) are modelled as rationals.  Row ids (SQLite
autoincrement primary keys) are modelled by threading a `nextId : Nat`
counter through the operations that insert rows.
-/

namespace Rent

/-- Embeds the `Tenant` model of `src/app.py` (id, name, phone, room_no,
monthly_rent). -/
structure Tenant where
  id : Nat
  name : String
  phone : String
  room_no : String
  monthly_rent : ℚ
  deriving DecidableEq

/-- Embeds the `RentDue` model of `src/app.py` (id, tenant_id, month in
"YYYY-MM" form, amount, status string defaulting to "unpaid", nullable
paid_date). `paid_date` is a timestamp modelled as `Option Nat`. -/
structure RentDue where
  id : Nat
  tenant_id : Nat
  month : String
  amount : ℚ
  status : String
  paid_date : Option Nat
  deriving DecidableEq

/-- The persistent store: the `tenant` and `rent_due` tables. -/
structure Store where
  tenants : List Tenant
  dues : List RentDue
  deriving DecidableEq

/-! ### WhatsApp link construction (`build_whatsapp_link`) -/

/-- Uppercase hexadecimal digit, as produced by `urllib.parse.quote`. -/
def hexDigit (n : Nat) : Char :=
  if n < 10 then Char.ofNat (48 + n) else Char.ofNat (55 + n)

/-- UTF-8 encoding of a single character, as a list of byte values;
`urllib.parse.quote` percent-encodes the UTF-8 bytes of non-safe characters. -/
def utf8Bytes (c : Char) : List Nat :=
  let n := c.toNat
  if n < 0x80 then [n]
  else if n < 0x800 then [0xC0 + n / 0x40, 0x80 + n % 0x40]
  else if n < 0x10000 then [0xE0 + n / 0x1000, 0x80 + n / 0x40 % 0x40, 0x80 + n % 0x40]
  else [0xF0 + n / 0x40000, 0x80 + n / 0x1000 % 0x40, 0x80 + n / 0x40 % 0x40, 0x80 + n % 0x40]

/-- The characters `urllib.parse.quote` leaves unescaped with its default
`safe="/"`: ASCII letters, digits, `_.-~` and `/`. -/
def isSafeChar (c : Char) : Bool :=
  c.isAlpha || c.isDigit || c == '_' || c == '.' || c == '-' || c == '~' || c == '/'

/-- Percent-encoding of one character. -/
def quoteChar (c : Char) : List Char :=
  if isSafeChar c then [c]
  else (utf8Bytes c).flatMap (fun b => ['%', hexDigit (b / 16), hexDigit (b % 16)])

/-- Embeds `urllib.parse.quote(message)` with the default safe set. -/
def quote (s : String) : String :=
  String.mk (s.data.flatMap quoteChar)

/-- The whitespace characters removed by Python's `str.strip()` (ASCII
range). -/
def isSpaceChar (c : Char) : Bool :=
  c == ' ' || c == '\t' || c == '\n' || c == '\r' || c == '\x0b' || c == '\x0c'

/-- Embeds Python's `phone.strip()`. -/
def pyStrip (s : String) : String :=
  String.mk (((s.data.dropWhile isSpaceChar).reverse.dropWhile isSpaceChar).reverse)

/-- Embeds Python's `s.startswith(p)`. -/
def pyStartsWith (s p : String) : Bool :=
  p.data.isPrefixOf s.data

/-- The phone normalization inside `build_whatsapp_link`:
`phone = phone.strip()`, then prepend `"91"` unless the string already
starts with `"91"`. -/
def normalizePhone (phone : String) : String :=
  let p := pyStrip phone
  if pyStartsWith p "91" then p else "91" ++ p

/-- Embeds `build_whatsapp_link(phone, message)` of `src/app.py`. -/
def build_whatsapp_link (phone message : String) : String :=
  "https://wa.me/" ++ normalizePhone phone ++ "?text=" ++ quote message

/-! ### Due calculation (`calculate_due_for_tenant`) -/

/-- Embeds `calculate_due_for_tenant(tenant_id)` of `src/app.py`: the query
`RentDue.query.filter_by(tenant_id=tenant_id, status="unpaid").all()`
followed by the count and the amount sum. -/
def calculate_due_for_tenant (dues : List RentDue) (tenant_id : Nat) :
    Nat × ℚ × List RentDue :=
  let ds := dues.filter (fun d => d.tenant_id == tenant_id && d.status == "unpaid")
  (ds.length, (ds.map RentDue.amount).sum, ds)

/-! ### Reminder message (`get_whatsapp_reminder_link`) -/

/-- The f-string message built in `get_whatsapp_reminder_link`.  The
rendering of the rational amount stands in for Python's float formatting. -/
def reminderMessage (t : Tenant) (months_due : Nat) (total_due : ℚ) : String :=
  "Hello " ++ t.name ++ ",\n\n" ++
  "Your rent is overdue.\n" ++
  "Room No: " ++ t.room_no ++ "\n" ++
  "Pending Months: " ++ toString months_due ++ "\n" ++
  "Total Due Amount: ₹" ++ toString total_due ++ "\n\n" ++
  "Please pay as soon as possible.\n" ++
  "- Rent Management"

/-- Embeds `get_whatsapp_reminder_link(tenant)` of `src/app.py`. -/
def get_whatsapp_reminder_link (dues : List RentDue) (t : Tenant) : Option String :=
  let r := calculate_due_for_tenant dues t.id
  if r.1 == 0 then none
  else some (build_whatsapp_link t.phone (reminderMessage t r.1 r.2.1))

/-! ### Month generation (`generate_current_month_rent`) -/

/-- Embeds the existence query
`RentDue.query.filter_by(tenant_id=t.id, month=this_month).first()`
(as a boolean). -/
def rentDueExists (dues : List RentDue) (tid : Nat) (m : String) : Bool :=
  dues.any (fun d => d.tenant_id == tid && d.month == m)

/-- The row created by the generator:
`RentDue(tenant_id=..., month=..., amount=..., status="unpaid")`
(with `paid_date` left at its null default). -/
def newDue (i tid : Nat) (m : String) (amt : ℚ) : RentDue :=
  { id := i, tenant_id := tid, month := m, amount := amt,
    status := "unpaid", paid_date := none }

/-- The tenant loop of `generate_current_month_rent`: for each tenant, if no
due exists for the month, insert one (with the next fresh id); the existence
query sees rows added earlier in the same run (session autoflush). -/
def genRun (this_month : String) (ts : List Tenant) (dues : List RentDue)
    (nextId : Nat) : List RentDue × Nat :=
  match ts with
  | [] => (dues, nextId)
  | t :: rest =>
    if rentDueExists dues t.id this_month then
      genRun this_month rest dues nextId
    else
      genRun this_month rest (dues ++ [newDue nextId t.id this_month t.monthly_rent])
        (nextId + 1)

/-- Embeds `generate_current_month_rent()` of `src/app.py`, with the current
month supplied by the caller (clock injection). -/
def generate_current_month_rent (this_month : String) (s : Store) (nextId : Nat) :
    Store × Nat :=
  let r := genRun this_month s.tenants s.dues nextId
  ({ s with dues := r.1 }, r.2)

/-- Running the generator `k` times in a row within the same month. -/
def genIter (this_month : String) (k : Nat) (p : Store × Nat) : Store × Nat :=
  match k with
  | 0 => p
  | j + 1 => genIter this_month j (generate_current_month_rent this_month p.1 p.2)

/-! ### Status transitions (`mark_rent_paid`, `mark_rent_unpaid`) -/

/-- Embeds the mutation of the `/rent/mark-paid/<due_id>` route: the row with
primary key `due_id` gets status "paid" and a paid_date timestamp, but only
if its status was "unpaid". -/
def mark_rent_paid (dues : List RentDue) (due_id now : Nat) : List RentDue :=
  dues.map (fun d =>
    if d.id == due_id && d.status == "unpaid" then
      { d with status := "paid", paid_date := some now }
    else d)

/-- Embeds the mutation of the `/rent/mark-unpaid/<due_id>` route: the row
with primary key `due_id` gets status "unpaid" and its paid_date cleared, but
only if its status was "paid". -/
def mark_rent_unpaid (dues : List RentDue) (due_id : Nat) : List RentDue :=
  dues.map (fun d =>
    if d.id == due_id && d.status == "paid" then
      { d with status := "unpaid", paid_date := none }
    else d)

/-! ### Tenant CRUD (`add_tenant`, `edit_tenant`, `delete_tenant`) -/

/-- Embeds the mutation of the `/tenant/add` route. -/
def add_tenant (s : Store) (t : Tenant) : Store :=
  { s with tenants := s.tenants ++ [t] }

/-- Embeds the mutation of the `/tenant/edit/<tenant_id>` route. -/
def edit_tenant (s : Store) (tid : Nat) (n p r : String) (mr : ℚ) : Store :=
  { s with tenants := s.tenants.map (fun t =>
      if t.id == tid then
        { t with name := n, phone := p, room_no := r, monthly_rent := mr }
      else t) }

/-- Embeds the mutation of the `/tenant/delete/<tenant_id>` route:
`db.session.delete(tenant)` with the `cascade="all, delete-orphan"`
relationship also deletes all of the tenant's RentDue rows.  When no tenant
has the id, `get_or_404` aborts and the store is unchanged. -/
def delete_tenant (s : Store) (tid : Nat) : Store :=
  if s.tenants.any (fun t => t.id == tid) then
    { tenants := s.tenants.filter (fun t => t.id != tid),
      dues := s.dues.filter (fun d => d.tenant_id != tid) }
  else s

/-! ### Fake-months endpoint (`generate_fake_3_months`) -/

/-- The month loop of `generate_fake_3_months`: same existence check and
insert as the generator, for a single tenant over a list of months. -/
def fakeRun (tid : Nat) (amt : ℚ) (months : List String) (dues : List RentDue)
    (nextId : Nat) : List RentDue × Nat :=
  match months with
  | [] => (dues, nextId)
  | m :: rest =>
    if rentDueExists dues tid m then fakeRun tid amt rest dues nextId
    else fakeRun tid amt rest (dues ++ [newDue nextId tid m amt]) (nextId + 1)

/-! ### Reachable store states -/

/-- One mutating operation of the application, relating (store, next row id)
pairs. -/
inductive Step : Store × Nat → Store × Nat → Prop
  | add (s : Store) (n : Nat) (t : Tenant) :
      Step (s, n) (add_tenant s t, n)
  | edit (s : Store) (n : Nat) (tid : Nat) (nm ph rm : String) (mr : ℚ) :
      Step (s, n) (edit_tenant s tid nm ph rm mr, n)
  | del (s : Store) (n : Nat) (tid : Nat) :
      Step (s, n) (delete_tenant s tid, n)
  | gen (s : Store) (n : Nat) (m : String) :
      Step (s, n) (generate_current_month_rent m s n)
  | fake (s : Store) (n : Nat) (t : Tenant) (months : List String)
      (ht : t ∈ s.tenants) :
      Step (s, n) ({ s with dues := (fakeRun t.id t.monthly_rent months s.dues n).1 },
        (fakeRun t.id t.monthly_rent months s.dues n).2)
  | paid (s : Store) (n : Nat) (due_id now : Nat) :
      Step (s, n) ({ s with dues := mark_rent_paid s.dues due_id now }, n)
  | unpaid (s : Store) (n : Nat) (due_id : Nat) :
      Step (s, n) ({ s with dues := mark_rent_unpaid s.dues due_id }, n)

/-- States reachable from the freshly created empty database. -/
inductive Reachable : Store × Nat → Prop
  | init : Reachable (⟨[], []⟩, 0)
  | step {p q : Store × Nat} : Reachable p → Step p q → Reachable q

/-! ### Derived notions used in the statements -/

/-- The RentDue rows of a given tenant for a given month. -/
def duesFor (dues : List RentDue) (tid : Nat) (m : String) : List RentDue :=
  dues.filter (fun d => d.tenant_id == tid && d.month == m)

/-- The per-row status/paid_date invariant of the spec's data model. -/
def dueInv (d : RentDue) : Prop :=
  (d.status = "unpaid" ∨ d.status = "paid") ∧
    (d.paid_date.isSome = true ↔ d.status = "paid")

/-- `needle` occurs as a contiguous substring of `hay`. -/
def containsStr (hay needle : String) : Prop :=
  ∃ a b, hay = a ++ needle ++ b

/-- A concrete tenant used to instantiate proved theorems. -/
def demoTenant : Tenant := ⟨1, "Ram", "9876543210", "A1", 5000⟩

/-- A concrete one-tenant store with no dues. -/
def demoStore : Store := { tenants := [demoTenant], dues := [] }

/-- A concrete two-tenant store with one unpaid due per tenant. -/
def demoStore2 : Store :=
  { tenants := [demoTenant, ⟨2, "Shyam", "9123456789", "B2", 7000⟩],
    dues := [⟨1, 1, "2025-01", 5000, "unpaid", none⟩,
             ⟨2, 2, "2025-01", 7000, "unpaid", none⟩] }

/-! ### Lemmas about the month generator -/

theorem rentDueExists_eq_false (ds : List RentDue) (tid : Nat) (m : String) :
    rentDueExists ds tid m = false ↔ duesFor ds tid m = [] := by
  simp [rentDueExists, duesFor, List.any_eq_false, List.filter_eq_nil_iff]

theorem duesFor_append (ds es : List RentDue) (tid : Nat) (m : String) :
    duesFor (ds ++ es) tid m = duesFor ds tid m ++ duesFor es tid m := by
  simp [duesFor, List.filter_append]

theorem genRun_fst_append (m : String) (ts : List Tenant) (ds : List RentDue)
    (n : Nat) :
    ∃ extra, (genRun m ts ds n).1 = ds ++ extra ∧
      ∀ d ∈ extra, d.month = m ∧ d.status = "unpaid" ∧ d.paid_date = none := by
  induction ts generalizing ds n with
  | nil => exact ⟨[], by simp [genRun], by simp⟩
  | cons t rest ih =>
    cases hc : rentDueExists ds t.id m with
    | true =>
      obtain ⟨e, he, hprop⟩ := ih ds n
      exact ⟨e, by simp [genRun, hc, he], hprop⟩
    | false =>
      obtain ⟨e, he, hprop⟩ := ih (ds ++ [newDue n t.id m t.monthly_rent]) (n + 1)
      refine ⟨newDue n t.id m t.monthly_rent :: e, ?_, ?_⟩
      · simp only [genRun, hc, Bool.false_eq_true, if_false]
        rw [he]
        simp
      · intro d hd
        rcases List.mem_cons.mp hd with h1 | h2
        · subst h1; exact ⟨rfl, rfl, rfl⟩
        · exact hprop d h2

theorem rentDueExists_genRun_mono (m m' : String) (ts : List Tenant)
    (ds : List RentDue) (n tid : Nat) (h : rentDueExists ds tid m' = true) :
    rentDueExists (genRun m ts ds n).1 tid m' = true := by
  obtain ⟨e, he, -⟩ := genRun_fst_append m ts ds n
  rw [he]
  simp only [rentDueExists, List.any_append, Bool.or_eq_true]
  exact Or.inl h

theorem genRun_covers (m : String) (ts : List Tenant) (ds : List RentDue)
    (n : Nat) : ∀ t ∈ ts, rentDueExists (genRun m ts ds n).1 t.id m = true := by
  induction ts generalizing ds n with
  | nil => simp
  | cons t rest ih =>
    intro t' ht'
    rcases List.mem_cons.mp ht' with rfl | hmem
    · cases hc : rentDueExists ds t'.id m with
      | true =>
        simp only [genRun, hc, if_true]
        exact rentDueExists_genRun_mono m m rest ds n t'.id hc
      | false =>
        have hnew : rentDueExists (ds ++ [newDue n t'.id m t'.monthly_rent])
            t'.id m = true := by
          simp [rentDueExists, newDue]
        simp only [genRun, hc, Bool.false_eq_true, if_false]
        exact rentDueExists_genRun_mono m m rest _ (n + 1) t'.id hnew
    · cases hc : rentDueExists ds t.id m with
      | true => simp only [genRun, hc, if_true]; exact ih ds n t' hmem
      | false =>
        simp only [genRun, hc, Bool.false_eq_true, if_false]
        exact ih _ (n + 1) t' hmem

theorem genRun_noop (m : String) : ∀ (ts : List Tenant) (ds : List RentDue)
    (n : Nat), (∀ t ∈ ts, rentDueExists ds t.id m = true) →
    genRun m ts ds n = (ds, n) := by
  intro ts
  induction ts with
  | nil => intro ds n _; rfl
  | cons t rest ih =>
    intro ds n h
    have ht := h t (List.mem_cons_self t rest)
    simp only [genRun, ht, if_true]
    exact ih ds n (fun t' h' => h t' (List.mem_cons_of_mem _ h'))

theorem generate_idem (m : String) (s : Store) (n : Nat) :
    generate_current_month_rent m (generate_current_month_rent m s n).1
      (generate_current_month_rent m s n).2 = generate_current_month_rent m s n := by
  have hcov := genRun_covers m s.tenants s.dues n
  have hnoop := genRun_noop m s.tenants (genRun m s.tenants s.dues n).1
    (genRun m s.tenants s.dues n).2 hcov
  simp [generate_current_month_rent, hnoop]

theorem genIter_fixed (m : String) (s : Store) (n : Nat) (j : Nat) :
    genIter m j (generate_current_month_rent m s n) =
      generate_current_month_rent m s n := by
  induction j with
  | zero => rfl
  | succ j ih =>
    show genIter m j (generate_current_month_rent m
      (generate_current_month_rent m s n).1
      (generate_current_month_rent m s n).2) = _
    rw [generate_idem]
    exact ih

theorem genRun_duesFor_of_ne_nil (m : String) : ∀ (ts : List Tenant)
    (ds : List RentDue) (n tid : Nat), duesFor ds tid m ≠ [] →
    duesFor (genRun m ts ds n).1 tid m = duesFor ds tid m := by
  intro ts
  induction ts with
  | nil => intro ds n tid _; rfl
  | cons t rest ih =>
    intro ds n tid hne
    by_cases hid : t.id = tid
    · subst hid
      have hex : rentDueExists ds t.id m = true := by
        cases hx : rentDueExists ds t.id m with
        | false => exact absurd ((rentDueExists_eq_false ds t.id m).mp hx) hne
        | true => rfl
      simp only [genRun, hex, if_true]
      exact ih ds n t.id hne
    · cases hc : rentDueExists ds t.id m with
      | true =>
        simp only [genRun, hc, if_true]
        exact ih ds n tid hne
      | false =>
        simp only [genRun, hc, Bool.false_eq_true, if_false]
        have hsame : duesFor (ds ++ [newDue n t.id m t.monthly_rent]) tid m =
            duesFor ds tid m := by
          rw [duesFor_append]
          have hnil : duesFor [newDue n t.id m t.monthly_rent] tid m = [] := by
            simp [duesFor, newDue, hid]
          rw [hnil, List.append_nil]
        have hne2 : duesFor (ds ++ [newDue n t.id m t.monthly_rent]) tid m ≠ [] := by
          rw [hsame]; exact hne
        rw [ih _ (n + 1) tid hne2, hsame]

theorem genRun_duesFor_creates (m : String) : ∀ (ts : List Tenant)
    (ds : List RentDue) (n tid : Nat), duesFor ds tid m = [] →
    tid ∈ ts.map Tenant.id →
    (duesFor (genRun m ts ds n).1 tid m).length = 1 := by
  intro ts
  induction ts with
  | nil => intro ds n tid _ hin; simp at hin
  | cons t rest ih =>
    intro ds n tid h0 hin
    by_cases hid : t.id = tid
    · subst hid
      have hex : rentDueExists ds t.id m = false :=
        (rentDueExists_eq_false ds t.id m).mpr h0
      simp only [genRun, hex, Bool.false_eq_true, if_false]
      have hone : duesFor (ds ++ [newDue n t.id m t.monthly_rent]) t.id m =
          [newDue n t.id m t.monthly_rent] := by
        rw [duesFor_append, h0]
        simp [duesFor, newDue]
      have hne : duesFor (ds ++ [newDue n t.id m t.monthly_rent]) t.id m ≠ [] := by
        rw [hone]; simp
      rw [genRun_duesFor_of_ne_nil m rest _ (n + 1) t.id hne, hone]
      rfl
    · have hin' : tid ∈ rest.map Tenant.id := by
        simp only [List.map_cons, List.mem_cons] at hin
        rcases hin with h | h
        · exact absurd h.symm hid
        · exact h
      cases hc : rentDueExists ds t.id m with
      | true =>
        simp only [genRun, hc, if_true]
        exact ih ds n tid h0 hin'
      | false =>
        simp only [genRun, hc, Bool.false_eq_true, if_false]
        have h0' : duesFor (ds ++ [newDue n t.id m t.monthly_rent]) tid m = [] := by
          rw [duesFor_append, h0]
          simp [duesFor, newDue, hid]
        exact ih _ (n + 1) tid h0' hin'

theorem genRun_duesFor_creates_row (m : String) : ∀ (ts : List Tenant)
    (ds : List RentDue) (n tid : Nat) (amt : ℚ), duesFor ds tid m = [] →
    tid ∈ ts.map Tenant.id → (∀ t ∈ ts, t.id = tid → t.monthly_rent = amt) →
    ∃ i, duesFor (genRun m ts ds n).1 tid m = [newDue i tid m amt] := by
  intro ts
  induction ts with
  | nil => intro ds n tid amt _ hin _; simp at hin
  | cons t rest ih =>
    intro ds n tid amt h0 hin hamt
    by_cases hid : t.id = tid
    · subst hid
      have hex : rentDueExists ds t.id m = false :=
        (rentDueExists_eq_false ds t.id m).mpr h0
      simp only [genRun, hex, Bool.false_eq_true, if_false]
      have hrent : t.monthly_rent = amt := hamt t (List.mem_cons_self t rest) rfl
      have hone : duesFor (ds ++ [newDue n t.id m t.monthly_rent]) t.id m =
          [newDue n t.id m t.monthly_rent] := by
        rw [duesFor_append, h0]
        simp [duesFor, newDue]
      have hne : duesFor (ds ++ [newDue n t.id m t.monthly_rent]) t.id m ≠ [] := by
        rw [hone]; simp
      refine ⟨n, ?_⟩
      rw [genRun_duesFor_of_ne_nil m rest _ (n + 1) t.id hne, hone, hrent]
    · have hin' : tid ∈ rest.map Tenant.id := by
        simp only [List.map_cons, List.mem_cons] at hin
        rcases hin with h | h
        · exact absurd h.symm hid
        · exact h
      cases hc : rentDueExists ds t.id m with
      | true =>
        simp only [genRun, hc, if_true]
        exact ih ds n tid amt h0 hin'
          (fun t' h' => hamt t' (List.mem_cons_of_mem _ h'))
      | false =>
        simp only [genRun, hc, Bool.false_eq_true, if_false]
        have h0' : duesFor (ds ++ [newDue n t.id m t.monthly_rent]) tid m = [] := by
          rw [duesFor_append, h0]
          simp [duesFor, newDue, hid]
        exact ih _ (n + 1) tid amt h0' hin'
          (fun t' h' => hamt t' (List.mem_cons_of_mem _ h'))

/-- Claim C1: running the Month Generator any number of times `k ≥ 1` within
the same month gives the same (store, next id) state as running it once, and
afterwards every tenant has exactly one RentDue row for the current month
(assuming the store starts with at most one row per (tenant, month), the
database uniqueness invariant). -/
theorem month_generator_idempotent (m : String) (s : Store) (n k : Nat)
    (hk : 1 ≤ k)
    (huniq : ∀ t ∈ s.tenants, (duesFor s.dues t.id m).length ≤ 1) :
    genIter m k (s, n) = generate_current_month_rent m s n ∧
    ∀ t ∈ s.tenants, (duesFor (genIter m k (s, n)).1.dues t.id m).length = 1 := by
  have hiter : genIter m k (s, n) = generate_current_month_rent m s n := by
    obtain ⟨j, rfl⟩ : ∃ j, k = j + 1 := ⟨k - 1, (Nat.succ_pred_eq_of_pos hk).symm⟩
    show genIter m j (generate_current_month_rent m (s, n).1 (s, n).2) = _
    exact genIter_fixed m s n j
  refine ⟨hiter, ?_⟩
  intro t ht
  rw [hiter]
  show (duesFor (genRun m s.tenants s.dues n).1 t.id m).length = 1
  by_cases h0 : duesFor s.dues t.id m = []
  · exact genRun_duesFor_creates m s.tenants s.dues n t.id h0
      (List.mem_map.mpr ⟨t, ht, rfl⟩)
  · rw [genRun_duesFor_of_ne_nil m s.tenants s.dues n t.id h0]
    have h1 := huniq t ht
    have h2 : duesFor s.dues t.id m ≠ [] := h0
    have h3 : 0 < (duesFor s.dues t.id m).length := List.length_pos.mpr h2
    omega

theorem month_generator_idempotent_witness :
    genIter "2025-01" 2 (demoStore, 0) =
      generate_current_month_rent "2025-01" demoStore 0 ∧
    ∀ t ∈ demoStore.tenants,
      (duesFor (genIter "2025-01" 2 (demoStore, 0)).1.dues t.id "2025-01").length = 1 :=
  month_generator_idempotent "2025-01" demoStore 0 2 (by decide)
    (by intro t _; simp [demoStore, duesFor])

/-- Claim C2: a tenant with no RentDue row for the current month gets, from
one generator run, exactly one new row for that month, with amount equal to
the tenant's current monthly rent and status "unpaid" (and no paid date) —
`newDue` fixes status := "unpaid" and paid_date := none.  Tenant ids are
assumed pairwise distinct (primary keys). -/
theorem month_generator_creates_due (m : String) (s : Store) (n : Nat)
    (t : Tenant) (hnodup : (s.tenants.map Tenant.id).Nodup)
    (ht : t ∈ s.tenants) (h0 : duesFor s.dues t.id m = []) :
    ∃ i, duesFor (generate_current_month_rent m s n).1.dues t.id m =
      [newDue i t.id m t.monthly_rent] := by
  apply genRun_duesFor_creates_row m s.tenants s.dues n t.id t.monthly_rent h0
    (List.mem_map.mpr ⟨t, ht, rfl⟩)
  intro t' ht' hid
  have heq : t' = t :=
    List.inj_on_of_nodup_map hnodup ht' ht (by rw [hid])
  rw [heq]

theorem month_generator_creates_due_witness :
    ∃ i, duesFor (generate_current_month_rent "2025-01" demoStore 0).1.dues
      1 "2025-01" = [newDue i 1 "2025-01" 5000] :=
  month_generator_creates_due "2025-01" demoStore 0 demoTenant
    (by simp [demoStore, demoTenant]) (by simp [demoStore])
    (by simp [demoStore, duesFor])

/-- Claim C6: the Month Generator never modifies pre-existing RentDue rows:
the tenant table is untouched and the new dues table is the old one with
fresh rows (all for the generated month, unpaid, with no paid date) appended
after it — so every pre-existing row, whatever its amount, survives
byte-for-byte even if the owning tenant's rent changed since its creation. -/
theorem generator_preserves_existing_rows (m : String) (s : Store) (n : Nat) :
    (generate_current_month_rent m s n).1.tenants = s.tenants ∧
    ∃ extra, (generate_current_month_rent m s n).1.dues = s.dues ++ extra ∧
      ∀ d ∈ extra, d.month = m ∧ d.status = "unpaid" ∧ d.paid_date = none := by
  refine ⟨rfl, ?_⟩
  obtain ⟨e, he, hprop⟩ := genRun_fst_append m s.tenants s.dues n
  exact ⟨e, he, hprop⟩

/-- A map whose function fixes every element of the list is the identity on
that list. -/
theorem map_id_of_fixed {α : Type} (l : List α) (f : α → α)
    (h : ∀ a ∈ l, f a = a) : l.map f = l := by
  induction l with
  | nil => rfl
  | cons a l ih =>
    rw [List.map_cons, h a (List.mem_cons_self a l),
      ih (fun b hb => h b (List.mem_cons_of_mem _ hb))]

/-- Claim C3: the Due Calculator returns a triple `(n, s, D)` in which `D` is
exactly the set of the tenant's RentDue records whose status is "unpaid", `n`
is their count and `s` the sum of their amounts; for a tenant with no RentDue
records at all it returns `(0, 0, [])` rather than failing. -/
theorem due_calculator_correct (dues : List RentDue) (tid : Nat) :
    (∀ d, d ∈ (calculate_due_for_tenant dues tid).2.2 ↔
      d ∈ dues ∧ d.tenant_id = tid ∧ d.status = "unpaid") ∧
    (calculate_due_for_tenant dues tid).1 =
      (calculate_due_for_tenant dues tid).2.2.length ∧
    (calculate_due_for_tenant dues tid).2.1 =
      ((calculate_due_for_tenant dues tid).2.2.map RentDue.amount).sum ∧
    ((∀ d ∈ dues, d.tenant_id ≠ tid) →
      calculate_due_for_tenant dues tid = (0, 0, [])) := by
  refine ⟨?_, rfl, rfl, ?_⟩
  · intro d
    simp [calculate_due_for_tenant, List.mem_filter, and_assoc]
  · intro h
    have hnil : dues.filter
        (fun d => d.tenant_id == tid && d.status == "unpaid") = [] := by
      rw [List.filter_eq_nil_iff]
      intro d hd
      simp [h d hd]
    simp [calculate_due_for_tenant, hnil]

theorem due_calculator_correct_witness :
    calculate_due_for_tenant [] 5 = (0, 0, []) :=
  (due_calculator_correct [] 5).2.2.2 (by simp)

/-- Claim C5: status transitions attempted from the wrong state are no-ops:
mark-paid on dues whose row for that id is already "paid" returns the store's
dues unchanged (every field of every row), and mark-unpaid on a row that is
already "unpaid" likewise changes nothing. -/
theorem wrong_state_transitions_are_noops (dues : List RentDue)
    (due_id now : Nat) :
    ((∀ d ∈ dues, d.id = due_id → d.status = "paid") →
      mark_rent_paid dues due_id now = dues) ∧
    ((∀ d ∈ dues, d.id = due_id → d.status = "unpaid") →
      mark_rent_unpaid dues due_id = dues) := by
  constructor
  · intro h
    apply map_id_of_fixed
    intro d hd
    by_cases hdid : d.id = due_id
    · have hst := h d hd hdid
      simp [hst]
    · simp [hdid]
  · intro h
    apply map_id_of_fixed
    intro d hd
    by_cases hdid : d.id = due_id
    · have hst := h d hd hdid
      simp [hst]
    · simp [hdid]

theorem wrong_state_transitions_are_noops_witness :
    mark_rent_paid [⟨1, 7, "2025-01", 5000, "paid", some 10⟩] 1 99 =
      [⟨1, 7, "2025-01", 5000, "paid", some 10⟩] ∧
    mark_rent_unpaid [⟨2, 7, "2025-02", 5000, "unpaid", none⟩] 2 =
      [⟨2, 7, "2025-02", 5000, "unpaid", none⟩] :=
  ⟨(wrong_state_transitions_are_noops _ 1 99).1 (by simp),
   (wrong_state_transitions_are_noops _ 2 0).2 (by simp)⟩

/-- Claim C9: deleting an existing tenant also deletes all of that tenant's
RentDue rows: no row owned by the tenant survives, the Due Calculator then
reports `(0, 0, [])` for the deleted tenant, and every RentDue row of any
other tenant is untouched. -/
theorem delete_tenant_cascades (s : Store) (t : Tenant) (ht : t ∈ s.tenants) :
    (∀ d ∈ (delete_tenant s t.id).dues, d.tenant_id ≠ t.id) ∧
    calculate_due_for_tenant (delete_tenant s t.id).dues t.id = (0, 0, []) ∧
    (∀ d ∈ s.dues, d.tenant_id ≠ t.id → d ∈ (delete_tenant s t.id).dues) := by
  have hex : s.tenants.any (fun x => x.id == t.id) = true :=
    List.any_eq_true.mpr ⟨t, ht, by simp⟩
  have hdel : (delete_tenant s t.id).dues =
      s.dues.filter (fun d => d.tenant_id != t.id) := by
    simp only [delete_tenant, hex, if_true]
  refine ⟨?_, ?_, ?_⟩
  · intro d hd
    rw [hdel] at hd
    have hne := List.of_mem_filter hd
    simpa using hne
  · rw [hdel]
    have hfil : (s.dues.filter (fun d => d.tenant_id != t.id)).filter
        (fun d => d.tenant_id == t.id && d.status == "unpaid") = [] := by
      rw [List.filter_eq_nil_iff]
      intro d hd
      have hne := List.of_mem_filter hd
      simp only [bne_iff_ne, ne_eq] at hne
      simp [hne]
    simp [calculate_due_for_tenant, hfil]
  · intro d hd hne
    rw [hdel]
    exact List.mem_filter.mpr ⟨hd, by simpa using hne⟩

theorem delete_tenant_cascades_witness :
    (∀ d ∈ (delete_tenant demoStore2 demoTenant.id).dues,
      d.tenant_id ≠ demoTenant.id) ∧
    calculate_due_for_tenant (delete_tenant demoStore2 demoTenant.id).dues
      demoTenant.id = (0, 0, []) ∧
    (∀ d ∈ demoStore2.dues, d.tenant_id ≠ demoTenant.id →
      d ∈ (delete_tenant demoStore2 demoTenant.id).dues) :=
  delete_tenant_cascades demoStore2 demoTenant (by simp [demoStore2, demoTenant])

theorem fakeRun_fst_append (tid : Nat) (amt : ℚ) : ∀ (ms : List String)
    (ds : List RentDue) (n : Nat),
    ∃ extra, (fakeRun tid amt ms ds n).1 = ds ++ extra ∧
      ∀ d ∈ extra, d.status = "unpaid" ∧ d.paid_date = none := by
  intro ms
  induction ms with
  | nil => intro ds n; exact ⟨[], by simp [fakeRun], by simp⟩
  | cons m rest ih =>
    intro ds n
    cases hc : rentDueExists ds tid m with
    | true =>
      obtain ⟨e, he, hp⟩ := ih ds n
      exact ⟨e, by simp [fakeRun, hc, he], hp⟩
    | false =>
      obtain ⟨e, he, hp⟩ := ih (ds ++ [newDue n tid m amt]) (n + 1)
      refine ⟨newDue n tid m amt :: e, ?_, ?_⟩
      · simp only [fakeRun, hc, Bool.false_eq_true, if_false]
        rw [he]
        simp
      · intro d hd
        rcases List.mem_cons.mp hd with h1 | h2
        · subst h1; exact ⟨rfl, rfl⟩
        · exact hp d h2

theorem mark_rent_paid_dueInv {dues : List RentDue} {due_id now : Nat}
    (h : ∀ d ∈ dues, dueInv d) :
    ∀ d ∈ mark_rent_paid dues due_id now, dueInv d := by
  intro d hd
  rcases List.mem_map.mp hd with ⟨d0, hd0, heq⟩
  subst heq
  by_cases hc : (d0.id == due_id && d0.status == "unpaid") = true
  · simp only [hc, if_true]
    exact ⟨Or.inr rfl, by simp⟩
  · have hc' : (d0.id == due_id && d0.status == "unpaid") = false :=
      Bool.not_eq_true _ ▸ Bool.of_not_eq_true hc
    simp only [hc', Bool.false_eq_true, if_false]
    exact h d0 hd0

theorem mark_rent_unpaid_dueInv {dues : List RentDue} {due_id : Nat}
    (h : ∀ d ∈ dues, dueInv d) :
    ∀ d ∈ mark_rent_unpaid dues due_id, dueInv d := by
  intro d hd
  rcases List.mem_map.mp hd with ⟨d0, hd0, heq⟩
  subst heq
  by_cases hc : (d0.id == due_id && d0.status == "paid") = true
  · simp only [hc, if_true]
    exact ⟨Or.inl rfl, by simp⟩
  · have hc' : (d0.id == due_id && d0.status == "paid") = false :=
      Bool.not_eq_true _ ▸ Bool.of_not_eq_true hc
    simp only [hc', Bool.false_eq_true, if_false]
    exact h d0 hd0

theorem delete_tenant_dues_subset (s : Store) (tid : Nat) :
    ∀ d ∈ (delete_tenant s tid).dues, d ∈ s.dues := by
  intro d hd
  simp only [delete_tenant] at hd
  split at hd
  · exact List.mem_of_mem_filter hd
  · exact hd

/-- Claim C4: in every store state reachable from the empty database by the
application's operations, every RentDue row has status "unpaid" or "paid",
and carries a paid date exactly when the status is "paid" (mark-paid is the
only operation setting it, mark-unpaid the only one clearing it). -/
theorem reachable_status_paid_date_invariant (p : Store × Nat)
    (h : Reachable p) : ∀ d ∈ p.1.dues, dueInv d := by
  induction h with
  | init => intro d hd; exact absurd hd (List.not_mem_nil d)
  | step hr hs ih =>
    cases hs with
    | add s n t => exact ih
    | edit s n tid nm ph rm mr => exact ih
    | del s n tid =>
      intro d hd
      exact ih d (delete_tenant_dues_subset s tid d hd)
    | gen s n m =>
      intro d hd
      obtain ⟨e, he, hp⟩ := genRun_fst_append m s.tenants s.dues n
      rw [show (generate_current_month_rent m s n).1.dues =
        (genRun m s.tenants s.dues n).1 from rfl, he] at hd
      rcases List.mem_append.mp hd with h1 | h2
      · exact ih d h1
      · obtain ⟨-, h2s, h2p⟩ := hp d h2
        refine ⟨Or.inl h2s, ?_⟩
        rw [h2s, h2p]
        simp
    | fake s n t ms ht =>
      intro d hd
      obtain ⟨e, he, hp⟩ := fakeRun_fst_append t.id t.monthly_rent ms s.dues n
      rw [show ({ s with dues := (fakeRun t.id t.monthly_rent ms s.dues n).1 } :
        Store).dues = (fakeRun t.id t.monthly_rent ms s.dues n).1 from rfl,
        he] at hd
      rcases List.mem_append.mp hd with h1 | h2
      · exact ih d h1
      · obtain ⟨h2s, h2p⟩ := hp d h2
        refine ⟨Or.inl h2s, ?_⟩
        rw [h2s, h2p]
        simp
    | paid s n due_id now =>
      exact mark_rent_paid_dueInv ih
    | unpaid s n due_id =>
      exact mark_rent_unpaid_dueInv ih

theorem reachable_status_paid_date_invariant_witness :
    Reachable (generate_current_month_rent "2025-01"
      (add_tenant ⟨[], []⟩ demoTenant) 0) ∧
    ∀ d ∈ (generate_current_month_rent "2025-01"
      (add_tenant ⟨[], []⟩ demoTenant) 0).1.dues, dueInv d := by
  have h0 : Reachable ((⟨[], []⟩ : Store), 0) := Reachable.init
  have h1 : Reachable (add_tenant ⟨[], []⟩ demoTenant, 0) :=
    Reachable.step h0 (Step.add ⟨[], []⟩ 0 demoTenant)
  have h2 : Reachable (generate_current_month_rent "2025-01"
      (add_tenant ⟨[], []⟩ demoTenant) 0) :=
    Reachable.step h1 (Step.gen (add_tenant ⟨[], []⟩ demoTenant) 0 "2025-01")
  exact ⟨h2, reachable_status_paid_date_invariant _ h2⟩

theorem reminderMessage_contains_name (t : Tenant) (n : Nat) (q : ℚ) :
    containsStr (reminderMessage t n q) t.name := by
  refine ⟨"Hello ", ",\n\n" ++ "Your rent is overdue.\n" ++ "Room No: " ++
    t.room_no ++ "\n" ++ "Pending Months: " ++ toString n ++ "\n" ++
    "Total Due Amount: ₹" ++ toString q ++ "\n\n" ++
    "Please pay as soon as possible.\n" ++ "- Rent Management", ?_⟩
  simp only [reminderMessage, String.append_assoc]

theorem reminderMessage_contains_room (t : Tenant) (n : Nat) (q : ℚ) :
    containsStr (reminderMessage t n q) t.room_no := by
  refine ⟨"Hello " ++ t.name ++ ",\n\n" ++ "Your rent is overdue.\n" ++
    "Room No: ", "\n" ++ "Pending Months: " ++ toString n ++ "\n" ++
    "Total Due Amount: ₹" ++ toString q ++ "\n\n" ++
    "Please pay as soon as possible.\n" ++ "- Rent Management", ?_⟩
  simp only [reminderMessage, String.append_assoc]

theorem reminderMessage_contains_count (t : Tenant) (n : Nat) (q : ℚ) :
    containsStr (reminderMessage t n q) (toString n) := by
  refine ⟨"Hello " ++ t.name ++ ",\n\n" ++ "Your rent is overdue.\n" ++
    "Room No: " ++ t.room_no ++ "\n" ++ "Pending Months: ",
    "\n" ++ "Total Due Amount: ₹" ++ toString q ++ "\n\n" ++
    "Please pay as soon as possible.\n" ++ "- Rent Management", ?_⟩
  simp only [reminderMessage, String.append_assoc]

theorem reminderMessage_contains_total (t : Tenant) (n : Nat) (q : ℚ) :
    containsStr (reminderMessage t n q) (toString q) := by
  refine ⟨"Hello " ++ t.name ++ ",\n\n" ++ "Your rent is overdue.\n" ++
    "Room No: " ++ t.room_no ++ "\n" ++ "Pending Months: " ++ toString n ++
    "\n" ++ "Total Due Amount: ₹",
    "\n\n" ++ "Please pay as soon as possible.\n" ++ "- Rent Management", ?_⟩
  simp only [reminderMessage, String.append_assoc]

/-- Claim C7: the Reminder Formatter returns no message (`none`, not an empty
string) for a tenant whose months-due count is zero; otherwise it returns a
WhatsApp deep link built from the normalized phone number and the URL-escaped
message text, where the message contains the tenant's name, room identifier,
pending-month count and total due amount. -/
theorem reminder_formatter_correct (dues : List RentDue) (t : Tenant) :
    ((calculate_due_for_tenant dues t.id).1 = 0 →
      get_whatsapp_reminder_link dues t = none) ∧
    ((calculate_due_for_tenant dues t.id).1 ≠ 0 →
      ∃ msg, containsStr msg t.name ∧ containsStr msg t.room_no ∧
        containsStr msg (toString (calculate_due_for_tenant dues t.id).1) ∧
        containsStr msg (toString (calculate_due_for_tenant dues t.id).2.1) ∧
        get_whatsapp_reminder_link dues t = some ("https://wa.me/" ++
          normalizePhone t.phone ++ "?text=" ++ quote msg)) := by
  constructor
  · intro h
    simp [get_whatsapp_reminder_link, h]
  · intro h
    have hb : ((calculate_due_for_tenant dues t.id).1 == 0) = false := by
      simpa using h
    refine ⟨reminderMessage t (calculate_due_for_tenant dues t.id).1
      (calculate_due_for_tenant dues t.id).2.1,
      reminderMessage_contains_name t _ _,
      reminderMessage_contains_room t _ _,
      reminderMessage_contains_count t _ _,
      reminderMessage_contains_total t _ _, ?_⟩
    show (if (calculate_due_for_tenant dues t.id).1 == 0 then none
      else some (build_whatsapp_link t.phone (reminderMessage t
        (calculate_due_for_tenant dues t.id).1
        (calculate_due_for_tenant dues t.id).2.1))) = _
    rw [hb]
    simp only [Bool.false_eq_true, if_false]
    rfl

theorem reminder_formatter_correct_witness :
    get_whatsapp_reminder_link [] demoTenant = none ∧
    ∃ msg, containsStr msg demoTenant.name ∧
      containsStr msg demoTenant.room_no ∧
      containsStr msg
        (toString (calculate_due_for_tenant demoStore2.dues demoTenant.id).1) ∧
      containsStr msg
        (toString (calculate_due_for_tenant demoStore2.dues demoTenant.id).2.1) ∧
      get_whatsapp_reminder_link demoStore2.dues demoTenant =
        some ("https://wa.me/" ++ normalizePhone demoTenant.phone ++
          "?text=" ++ quote msg) :=
  ⟨(reminder_formatter_correct [] demoTenant).1 rfl,
   (reminder_formatter_correct demoStore2.dues demoTenant).2 (by decide)⟩

/-- Claim C8: normalization prepends the default country code "91" when the
stored number lacks it and never double-prefixes: the link for phone
"9876543210" uses (and hence contains) "919876543210", and the phone
"919876543210" is used unchanged, producing the identical link. -/
theorem phone_prefix_normalization (msg : String) :
    build_whatsapp_link "9876543210" msg =
      "https://wa.me/919876543210?text=" ++ quote msg ∧
    build_whatsapp_link "919876543210" msg =
      "https://wa.me/919876543210?text=" ++ quote msg ∧
    containsStr (build_whatsapp_link "9876543210" msg) "919876543210" := by
  have h1 : normalizePhone "9876543210" = "919876543210" := by decide
  have h2 : normalizePhone "919876543210" = "919876543210" := by decide
  have hlit : "https://wa.me/" ++ ("919876543210" : String) ++ "?text=" =
      "https://wa.me/919876543210?text=" := by decide
  refine ⟨?_, ?_, ?_⟩
  · simp only [build_whatsapp_link, h1]
    rw [hlit]
  · simp only [build_whatsapp_link, h2]
    rw [hlit]
  · refine ⟨"https://wa.me/", "?text=" ++ quote msg, ?_⟩
    simp only [build_whatsapp_link, h1, String.append_assoc]

/-- Claim C10: the country-code check is purely textual: the stored phone is
stripped of surrounding whitespace and "91" is prepended exactly when the
stripped string does not already start with the characters "91"; hence a
local number that merely begins with the digits "91", such as "9123456789",
never gets a country code prepended. -/
theorem phone_check_is_textual (p msg : String) :
    (pyStartsWith (pyStrip p) "91" = true →
      build_whatsapp_link p msg =
        "https://wa.me/" ++ pyStrip p ++ "?text=" ++ quote msg) ∧
    (pyStartsWith (pyStrip p) "91" = false →
      build_whatsapp_link p msg =
        "https://wa.me/" ++ ("91" ++ pyStrip p) ++ "?text=" ++ quote msg) ∧
    build_whatsapp_link "9123456789" msg =
      "https://wa.me/9123456789?text=" ++ quote msg := by
  have h9 : normalizePhone "9123456789" = "9123456789" := by decide
  have hlit : "https://wa.me/" ++ ("9123456789" : String) ++ "?text=" =
      "https://wa.me/9123456789?text=" := by decide
  refine ⟨?_, ?_, ?_⟩
  · intro h
    simp only [build_whatsapp_link, normalizePhone, h, if_true]
  · intro h
    simp only [build_whatsapp_link, normalizePhone, h, Bool.false_eq_true,
      if_false]
  · simp only [build_whatsapp_link, h9]
    rw [hlit]

theorem phone_check_is_textual_witness :
    build_whatsapp_link " 9155 " "x" =
      "https://wa.me/" ++ pyStrip " 9155 " ++ "?text=" ++ quote "x" ∧
    build_whatsapp_link "80" "x" =
      "https://wa.me/" ++ ("91" ++ pyStrip "80") ++ "?text=" ++ quote "x" :=
  ⟨(phone_check_is_textual " 9155 " "x").1 (by decide),
   (phone_check_is_textual "80" "x").2.1 (by decide)⟩

end Rent
